import Mathlib

/-!
Verification of the interactive viewport of the canvas demo engine
(`DemoCanvas`): the world↔screen affine transform, the fit-bounds /
resize behavior, the mouse and touch gesture handlers, and the grid
step selection.  Numbers are modelled by `ℚ` (exact arithmetic).
`Math.hypot` is irrational in general, so the touch handlers take the
distance function as an explicit parameter `hyp`; running them with any
function that agrees with the Euclidean hypot on the contact deltas
actually occurring in a run reproduces that run exactly.
-/

namespace DemoCanvas

/-- Transform, interaction and fit state of a `DemoCanvas` instance.
`width`/`height` are the logical canvas dimensions (`this.width`,
`this.height`).  The remaining fields mirror the class fields of the
source one to one. -/
structure CanvasState where
  width : ℚ
  height : ℚ
  offsetX : ℚ
  offsetY : ℚ
  scale : ℚ
  isPanning : Bool
  panStartX : ℚ
  panStartY : ℚ
  panStartOffX : ℚ
  panStartOffY : ℚ
  isDragging : Bool
  touchDragging : Bool
  touchPanning : Bool
  lastTouchDist : ℚ
  lastTouchMidX : ℚ
  lastTouchMidY : ℚ
  savedBounds : Option (ℚ × ℚ × ℚ × ℚ)
deriving DecidableEq

/-- State after construction: `offset = (0,0)`, `scale = 1`, all gesture
flags false, no saved bounds.  The logical size comes from the parent
element. -/
def initState (w h : ℚ) : CanvasState :=
  { width := w
    height := h
    offsetX := 0
    offsetY := 0
    scale := 1
    isPanning := false
    panStartX := 0
    panStartY := 0
    panStartOffX := 0
    panStartOffY := 0
    isDragging := false
    touchDragging := false
    touchPanning := false
    lastTouchDist := 0
    lastTouchMidX := 0
    lastTouchMidY := 0
    savedBounds := none }

/-- Convert screen coords to world coords. -/
def screenToWorld (st : CanvasState) (sx sy : ℚ) : ℚ × ℚ :=
  ((sx - st.offsetX) / st.scale, (sy - st.offsetY) / st.scale)

/-- Convert world coords to screen coords. -/
def worldToScreen (st : CanvasState) (wx wy : ℚ) : ℚ × ℚ :=
  (wx * st.scale + st.offsetX, wy * st.scale + st.offsetY)

/-- Set view to show a world-space bounding box with padding
(`fitBounds`).  The requested bounds are stored in `savedBounds`
before the degenerate-input guards run, exactly as in the source. -/
def fitBounds (st : CanvasState) (left top right bottom : ℚ)
    (padding : ℚ := 40) : CanvasState :=
  let st1 := { st with savedBounds := some (left, top, right, bottom) }
  let worldW := right - left
  let worldH := bottom - top
  if worldW ≤ 0 ∨ worldH ≤ 0 then st1
  else
    let canvasW := st1.width - padding * 2
    let canvasH := st1.height - padding * 2
    if canvasW ≤ 0 ∨ canvasH ≤ 0 then st1
    else
      let scale := min (canvasW / worldW) (canvasH / worldH)
      let cx := (left + right) / 2
      let cy := (top + bottom) / 2
      { st1 with
          scale := scale
          offsetX := st1.width / 2 - cx * scale
          offsetY := st1.height / 2 - cy * scale }

/-- Zoom toward the screen point `(mx, my)` by `factor`: the update the
wheel handler performs, with the factor abstracted (the handler uses
`1.1` or `1/1.1`). -/
def zoomAt (st : CanvasState) (mx my factor : ℚ) : CanvasState :=
  let newScale := st.scale * factor
  { st with
      offsetX := mx - (mx - st.offsetX) * (newScale / st.scale)
      offsetY := my - (my - st.offsetY) * (newScale / st.scale)
      scale := newScale }

/-- Wheel handler: zoom toward the mouse position with factor `1.1`
for `deltaY < 0` and `1/1.1` otherwise. -/
def onWheel (st : CanvasState) (mx my deltaY : ℚ) : CanvasState :=
  zoomAt st mx my (if deltaY < 0 then 11 / 10 else 10 / 11)

/-- Mousedown handler: middle/right button (or left + alt) starts a pan
and records the pan anchor; a plain left button starts a drag. -/
def onMousedown (st : CanvasState) (sx sy : ℚ) (button : ℕ)
    (altKey : Bool) : CanvasState :=
  if button = 1 ∨ button = 2 ∨ (button = 0 ∧ altKey = true) then
    { st with
        isPanning := true
        panStartX := sx
        panStartY := sy
        panStartOffX := st.offsetX
        panStartOffY := st.offsetY }
  else if button = 0 then
    { st with isDragging := true }
  else st

/-- Mousemove handler: while panning, the offset follows the pointer
from the recorded anchor; otherwise only callbacks fire and the
transform is untouched. -/
def onMousemove (st : CanvasState) (sx sy : ℚ) : CanvasState :=
  if st.isPanning then
    { st with
        offsetX := st.panStartOffX + (sx - st.panStartX)
        offsetY := st.panStartOffY + (sy - st.panStartY) }
  else st

/-- Mouseup handler.  The second component counts `onDragEnd`
invocations performed by the handler. -/
def onMouseup (st : CanvasState) : CanvasState × ℕ :=
  let st1 := if st.isPanning then { st with isPanning := false } else st
  if st1.isDragging then ({ st1 with isDragging := false }, 1) else (st1, 0)

/-- Mouseleave handler: stops panning unconditionally and ends an
active mouse drag (invoking `onDragEnd`). -/
def onMouseleave (st : CanvasState) : CanvasState × ℕ :=
  let st1 := { st with isPanning := false }
  if st1.isDragging then ({ st1 with isDragging := false }, 1) else (st1, 0)

/-- Touchstart handler.  `hyp` models `Math.hypot`; `hdc` is the
`hasDragCallbacks` capture policy.  One contact starts a touch drag
only when drag callbacks exist; exactly two contacts end any active
touch drag (invoking `onDragEnd`) and start a touch pan, recording the
midpoint and inter-finger distance as the pinch baseline. -/
def onTouchstart (hyp : ℚ → ℚ → ℚ) (hdc : Bool) (st : CanvasState)
    (touches : List (ℚ × ℚ)) : CanvasState × ℕ :=
  match touches with
  | [_] =>
      if hdc then
        ({ st with touchDragging := true, touchPanning := false }, 0)
      else (st, 0)
  | [t0, t1] =>
      let (st1, n) :=
        if st.touchDragging then
          ({ st with touchDragging := false }, 1)
        else (st, 0)
      let mx := (t0.1 + t1.1) / 2
      let my := (t0.2 + t1.2) / 2
      ({ st1 with
          touchPanning := true
          lastTouchMidX := mx
          lastTouchMidY := my
          lastTouchDist := hyp (t1.1 - t0.1) (t1.2 - t0.2) }, n)
  | _ => (st, 0)

/-- Touchmove handler.  A single dragging contact only fires callbacks.
Two contacts: if not yet panning, escalate (ending any touch drag) and
re-baseline; otherwise pan by the midpoint delta, then — when the
previous frame's distance was positive — zoom toward the midpoint by
the distance ratio, then store the current midpoint/distance as the new
baseline. -/
def onTouchmove (hyp : ℚ → ℚ → ℚ) (st : CanvasState)
    (touches : List (ℚ × ℚ)) : CanvasState × ℕ :=
  match touches with
  | [t0, t1] =>
      if st.touchPanning = false then
        let (st1, n) :=
          if st.touchDragging then
            ({ st with touchDragging := false }, 1)
          else (st, 0)
        ({ st1 with
            touchPanning := true
            lastTouchMidX := (t0.1 + t1.1) / 2
            lastTouchMidY := (t0.2 + t1.2) / 2
            lastTouchDist := hyp (t1.1 - t0.1) (t1.2 - t0.2) }, n)
      else
        let mx := (t0.1 + t1.1) / 2
        let my := (t0.2 + t1.2) / 2
        let dist := hyp (t1.1 - t0.1) (t1.2 - t0.2)
        let st1 := { st with
            offsetX := st.offsetX + (mx - st.lastTouchMidX)
            offsetY := st.offsetY + (my - st.lastTouchMidY) }
        let st2 :=
          if (0 : ℚ) < st1.lastTouchDist then
            let zoomFactor := dist / st1.lastTouchDist
            let newScale := st1.scale * zoomFactor
            { st1 with
                offsetX := mx - (mx - st1.offsetX) * (newScale / st1.scale)
                offsetY := my - (my - st1.offsetY) * (newScale / st1.scale)
                scale := newScale }
          else st1
        ({ st2 with
            lastTouchMidX := mx
            lastTouchMidY := my
            lastTouchDist := dist }, 0)
  | _ => (st, 0)

/-- Touchend handler: `touches` is the set of remaining contacts.  All
fingers lifted ends an active touch drag (invoking `onDragEnd`) and
stops panning; dropping to one contact stops panning only. -/
def onTouchend (st : CanvasState) (touches : List (ℚ × ℚ)) :
    CanvasState × ℕ :=
  match touches with
  | [] =>
      let (st1, n) :=
        if st.touchDragging then
          ({ st with touchDragging := false }, 1)
        else (st, 0)
      ({ st1 with touchPanning := false }, n)
  | [_] =>
      if st.touchPanning then ({ st with touchPanning := false }, 0)
      else (st, 0)
  | _ => (st, 0)

/-- Touchcancel handler: ends an active touch drag (invoking
`onDragEnd`) and stops touch panning. -/
def onTouchcancel (st : CanvasState) : CanvasState × ℕ :=
  let (st1, n) :=
    if st.touchDragging then
      ({ st with touchDragging := false }, 1)
    else (st, 0)
  ({ st1 with touchPanning := false }, n)

/-- Input events delivered to the listeners installed by
`enableInteraction`.  Touch events carry canvas-relative contact
coordinates (`clientX - rect.left`, `clientY - rect.top`); for
`touchend` the list holds the contacts remaining after the lift. -/
inductive Event where
  | wheel (mx my deltaY : ℚ)
  | mousedown (sx sy : ℚ) (button : ℕ) (altKey : Bool)
  | mousemove (sx sy : ℚ)
  | mouseup
  | mouseleave
  | touchstart (touches : List (ℚ × ℚ))
  | touchmove (touches : List (ℚ × ℚ))
  | touchend (touches : List (ℚ × ℚ))
  | touchcancel

/-- One event-dispatch step.  Returns the new state and the number of
`onDragEnd` invocations the handler performed. -/
def step (hyp : ℚ → ℚ → ℚ) (hdc : Bool) (st : CanvasState) :
    Event → CanvasState × ℕ
  | .wheel mx my deltaY => (onWheel st mx my deltaY, 0)
  | .mousedown sx sy button altKey => (onMousedown st sx sy button altKey, 0)
  | .mousemove sx sy => (onMousemove st sx sy, 0)
  | .mouseup => onMouseup st
  | .mouseleave => onMouseleave st
  | .touchstart touches => onTouchstart hyp hdc st touches
  | .touchmove touches => onTouchmove hyp st touches
  | .touchend touches => onTouchend st touches
  | .touchcancel => onTouchcancel st

/-- ResizeObserver callback: adopt the new logical size, then, when a
fit rectangle is remembered, re-invoke `fitBounds` with it (default
padding). -/
def resizeEvent (st : CanvasState) (newW newH : ℚ) : CanvasState :=
  let st1 := { st with width := newW, height := newH }
  match st1.savedBounds with
  | some (l, t, r, b) => fitBounds st1 l t r b
  | none => st1

/-- Grid spacing in world coordinates chosen by `drawGrid`: start from
50, compare the screen spacing of the base step against the band
thresholds, and adjust by a factor of 2 or 5. -/
def gridStep (scale : ℚ) : ℚ :=
  let g0 : ℚ := 50
  let screenStep := g0 * scale
  let g1 :=
    if screenStep < 30 then g0 * 5
    else if screenStep < 60 then g0 * 2
    else g0
  if 300 < screenStep then g1 / 5
  else if 150 < screenStep then g1 / 2
  else g1

/-- Transform-affecting operations: the wheel zoom, the mouse pan
cycle, and explicit `fitBounds` calls. -/
inductive TransformOp where
  | wheel (mx my deltaY : ℚ)
  | mousedown (sx sy : ℚ) (button : ℕ) (altKey : Bool)
  | mousemove (sx sy : ℚ)
  | mouseup
  | mouseleave
  | fit (l t r b padding : ℚ)

/-- Apply one transform-affecting operation through the corresponding
handler. -/
def applyTransformOp (st : CanvasState) : TransformOp → CanvasState
  | .wheel mx my deltaY => onWheel st mx my deltaY
  | .mousedown sx sy button altKey => onMousedown st sx sy button altKey
  | .mousemove sx sy => onMousemove st sx sy
  | .mouseup => (onMouseup st).1
  | .mouseleave => (onMouseleave st).1
  | .fit l t r b padding => fitBounds st l t r b padding

/-- Apply a sequence of transform-affecting operations in order. -/
def applyTransformOps (st : CanvasState) (ops : List TransformOp) :
    CanvasState :=
  ops.foldl applyTransformOp st

/-- Apply a sequence of zoom steps in order. -/
def zoomSeq (st : CanvasState) (zs : List (ℚ × ℚ × ℚ)) : CanvasState :=
  zs.foldl (fun s z => zoomAt s z.1 z.2.1 z.2.2) st

/-- Taxicab distance: agrees with the Euclidean `Math.hypot` whenever
one component is zero, which covers all concrete runs used below. -/
def taxicabDist (dx dy : ℚ) : ℚ := |dx| + |dy|

/-! ### Helper lemmas -/

/-- Zooming multiplies the scale by the factor. -/
lemma zoomAt_scale (st : CanvasState) (mx my f : ℚ) :
    (zoomAt st mx my f).scale = st.scale * f := rfl

/-- The zoom-anchor identity: the world point under the anchor before
the zoom is mapped back to the anchor after the zoom, exactly, for any
factor, as long as the scale is nonzero. -/
lemma zoomAt_anchor (st : CanvasState) (hsc : st.scale ≠ 0) (sx sy f : ℚ) :
    worldToScreen (zoomAt st sx sy f)
      (screenToWorld st sx sy).1 (screenToWorld st sx sy).2 = (sx, sy) := by
  simp only [worldToScreen, screenToWorld, zoomAt, Prod.mk.injEq]
  constructor <;> field_simp <;> ring

/-- Round trip: converting world to screen and back is the identity
when the scale is nonzero. -/
lemma screenToWorld_worldToScreen (st : CanvasState) (hsc : st.scale ≠ 0)
    (wx wy : ℚ) :
    screenToWorld st (worldToScreen st wx wy).1 (worldToScreen st wx wy).2
      = (wx, wy) := by
  simp only [screenToWorld, worldToScreen, Prod.mk.injEq]
  constructor <;> field_simp

/-- A positive-factor zoom keeps the scale positive. -/
lemma zoomAt_scale_pos (st : CanvasState) (mx my f : ℚ)
    (hs : 0 < st.scale) (hf : 0 < f) : 0 < (zoomAt st mx my f).scale := by
  rw [zoomAt_scale]; exact mul_pos hs hf

/-- A zoom sequence with positive factors keeps the scale positive. -/
lemma zoomSeq_scale_pos (zs : List (ℚ × ℚ × ℚ)) :
    ∀ st : CanvasState, 0 < st.scale → (∀ z ∈ zs, 0 < z.2.2) →
      0 < (zoomSeq st zs).scale := by
  induction zs with
  | nil => exact fun st hs _ => hs
  | cons z zs ih =>
      intro st hs hz
      exact ih _ (zoomAt_scale_pos st z.1 z.2.1 z.2.2 hs (hz z (by simp)))
        fun w hw => hz w (by simp [hw])

/-- Every call to `fitBounds` records the requested rectangle. -/
lemma fitBounds_savedBounds (st : CanvasState) (l t r b p : ℚ) :
    (fitBounds st l t r b p).savedBounds = some (l, t, r, b) := by
  simp only [fitBounds]
  split_ifs <;> rfl

/-- A world-degenerate rectangle makes `fitBounds` leave the transform
fields untouched. -/
lemma fitBounds_transform_of_degenerate (st : CanvasState) (l t r b p : ℚ)
    (h : r ≤ l ∨ b ≤ t ∨ st.width - p * 2 ≤ 0 ∨ st.height - p * 2 ≤ 0) :
    (fitBounds st l t r b p).scale = st.scale ∧
    (fitBounds st l t r b p).offsetX = st.offsetX ∧
    (fitBounds st l t r b p).offsetY = st.offsetY := by
  simp only [fitBounds]
  split_ifs with h1 h2
  · exact ⟨rfl, rfl, rfl⟩
  · exact ⟨rfl, rfl, rfl⟩
  · exfalso
    rw [not_or] at h1 h2
    rcases h with h | h | h | h
    · exact h1.1 (by linarith)
    · exact h1.2 (by linarith)
    · exact h2.1 (by simpa using h)
    · exact h2.2 (by simpa using h)

/-- `fitBounds` keeps the scale positive: either it is a no-op on the
transform, or all four quotient ingredients are positive. -/
lemma fitBounds_scale_pos (st : CanvasState) (l t r b p : ℚ)
    (hs : 0 < st.scale) : 0 < (fitBounds st l t r b p).scale := by
  simp only [fitBounds]
  split_ifs with h1 h2
  · exact hs
  · exact hs
  · rw [not_or, not_le, not_le] at h1 h2
    exact lt_min (div_pos h2.1 (by linarith [h1.1]))
      (div_pos h2.2 (by linarith [h1.2]))

/-- While the remembered rectangle is degenerate, any sequence of
container resizes leaves the transform fields unchanged (each resize
re-invokes `fitBounds` on the degenerate rectangle, a no-op on the
transform). -/
lemma resizes_preserve_transform_of_degenerate (l t r b : ℚ)
    (hdeg : r ≤ l ∨ b ≤ t) :
    ∀ (ws : List (ℚ × ℚ)) (s : CanvasState),
      s.savedBounds = some (l, t, r, b) →
        (ws.foldl (fun x wh => resizeEvent x wh.1 wh.2) s).scale = s.scale ∧
        (ws.foldl (fun x wh => resizeEvent x wh.1 wh.2) s).offsetX
          = s.offsetX ∧
        (ws.foldl (fun x wh => resizeEvent x wh.1 wh.2) s).offsetY
          = s.offsetY := by
  have hdeg4 : ∀ s' : CanvasState,
      r ≤ l ∨ b ≤ t ∨ s'.width - 40 * 2 ≤ 0 ∨ s'.height - 40 * 2 ≤ 0 :=
    fun s' => hdeg.elim Or.inl (fun h => Or.inr (Or.inl h))
  intro ws
  induction ws with
  | nil => exact fun s _ => ⟨rfl, rfl, rfl⟩
  | cons wh ws ih =>
      intro s hsb
      have hres : resizeEvent s wh.1 wh.2 =
          fitBounds { s with width := wh.1, height := wh.2 } l t r b 40 := by
        simp [resizeEvent, hsb]
      have hfit := fitBounds_transform_of_degenerate
        { s with width := wh.1, height := wh.2 } l t r b 40 (hdeg4 _)
      have hsb' : (resizeEvent s wh.1 wh.2).savedBounds
          = some (l, t, r, b) := by
        rw [hres]; exact fitBounds_savedBounds _ l t r b 40
      have htail := ih (resizeEvent s wh.1 wh.2) hsb'
      refine ⟨?_, ?_, ?_⟩
      · simp only [List.foldl_cons]
        rw [htail.1, hres, hfit.1]
      · simp only [List.foldl_cons]
        rw [htail.2.1, hres, hfit.2.1]
      · simp only [List.foldl_cons]
        rw [htail.2.2, hres, hfit.2.2]

/-- Every transform-affecting operation keeps the scale positive. -/
lemma applyTransformOp_scale_pos (st : CanvasState) (op : TransformOp)
    (hs : 0 < st.scale) : 0 < (applyTransformOp st op).scale := by
  cases op with
  | wheel mx my deltaY =>
      refine zoomAt_scale_pos st mx my _ hs ?_
      split_ifs <;> norm_num
  | mousedown sx sy button altKey =>
      simp only [applyTransformOp, onMousedown]
      split_ifs <;> exact hs
  | mousemove sx sy =>
      simp only [applyTransformOp, onMousemove]
      split_ifs <;> exact hs
  | mouseup =>
      simp only [applyTransformOp, onMouseup]
      split_ifs <;> exact hs
  | mouseleave =>
      simp only [applyTransformOp, onMouseleave]
      split_ifs <;> exact hs
  | fit l t r b p => exact fitBounds_scale_pos st l t r b p hs

/-- A sequence of transform-affecting operations keeps the scale
positive. -/
lemma applyTransformOps_scale_pos (ops : List TransformOp) :
    ∀ st : CanvasState, 0 < st.scale →
      0 < (applyTransformOps st ops).scale := by
  induction ops with
  | nil => exact fun st hs => hs
  | cons op ops ih =>
      exact fun st hs => ih _ (applyTransformOp_scale_pos st op hs)

/-! ### Claims -/

/-- C1.  Zoom-anchor invariance: starting from any transform state with
positive scale and applying any sequence of zoom steps with positive
factors, the scale stays positive, and one further zoom at any screen
point `(sx, sy)` with any factor maps the world point that was under
`(sx, sy)` before the zoom back to exactly `(sx, sy)`. -/
theorem zoom_anchor_invariance (st : CanvasState) (hs : 0 < st.scale)
    (zs : List (ℚ × ℚ × ℚ)) (hzs : ∀ z ∈ zs, 0 < z.2.2) :
    0 < (zoomSeq st zs).scale ∧
      ∀ sx sy f : ℚ,
        worldToScreen (zoomAt (zoomSeq st zs) sx sy f)
          (screenToWorld (zoomSeq st zs) sx sy).1
          (screenToWorld (zoomSeq st zs) sx sy).2 = (sx, sy) := by
  have hpos := zoomSeq_scale_pos zs st hs hzs
  exact ⟨hpos, fun sx sy f => zoomAt_anchor _ (ne_of_gt hpos) sx sy f⟩

/-- Witness for C1: one `1.1` wheel zoom at `(10, 20)` from the initial
state, then a `1/1.1` zoom anchored at `(50, 60)`. -/
theorem zoom_anchor_invariance_witness :
    0 < (zoomSeq (initState 400 400) [(10, 20, 11/10)]).scale ∧
      worldToScreen
        (zoomAt (zoomSeq (initState 400 400) [(10, 20, 11/10)]) 50 60 (10/11))
        (screenToWorld (zoomSeq (initState 400 400) [(10, 20, 11/10)]) 50 60).1
        (screenToWorld (zoomSeq (initState 400 400) [(10, 20, 11/10)]) 50 60).2
        = (50, 60) := by
  have h := zoom_anchor_invariance (initState 400 400)
    (by norm_num [initState]) [(10, 20, 11/10)] (by norm_num)
  exact ⟨h.1, h.2 50 60 (10/11)⟩

/-- C2.  Round-trip inverse: every state reachable from the initial
state by pan, zoom and fit operations has positive (hence nonzero)
scale, and on it `screenToWorld ∘ worldToScreen` is the identity on
every world point, exactly. -/
theorem round_trip_inverse_reachable (w h : ℚ) (ops : List TransformOp)
    (wx wy : ℚ) :
    0 < (applyTransformOps (initState w h) ops).scale ∧
      screenToWorld (applyTransformOps (initState w h) ops)
        (worldToScreen (applyTransformOps (initState w h) ops) wx wy).1
        (worldToScreen (applyTransformOps (initState w h) ops) wx wy).2
        = (wx, wy) := by
  have hpos := applyTransformOps_scale_pos ops (initState w h) (by norm_num [initState])
  exact ⟨hpos, screenToWorld_worldToScreen _ (ne_of_gt hpos) wx wy⟩

/-- C3.  The positive-scale invariant fails on a touch-move whose two
contact points coincide: after a two-finger touchstart at `(100,100)`
and `(200,100)` (baseline distance 100), a touch-move with both
contacts at `(150,100)` has current distance 0, and since only the
previous distance is guarded, the handler multiplies the scale by
`0 / 100` and leaves it at exactly 0.  `hyp` is any distance function
agreeing with `Math.hypot` on the two contact deltas of this run. -/
theorem pinch_zero_distance_zeroes_scale (hyp : ℚ → ℚ → ℚ)
    (h100 : hyp 100 0 = 100) (h0 : hyp 0 0 = 0) :
    (step hyp true (initState 400 400)
        (.touchstart [(100, 100), (200, 100)])).1.touchPanning = true ∧
    (step hyp true (initState 400 400)
        (.touchstart [(100, 100), (200, 100)])).1.lastTouchDist = 100 ∧
    (step hyp true
        (step hyp true (initState 400 400)
          (.touchstart [(100, 100), (200, 100)])).1
        (.touchmove [(150, 100), (150, 100)])).1.scale = 0 := by
  norm_num [step, onTouchstart, onTouchmove, initState, h100, h0]

/-- Witness for C3 at the taxicab distance, which agrees with
`Math.hypot` on both contact deltas of the run (`(100, 0)` and
`(0, 0)`). -/
theorem pinch_zero_distance_zeroes_scale_witness :
    (step taxicabDist true (initState 400 400)
        (.touchstart [(100, 100), (200, 100)])).1.touchPanning = true ∧
    (step taxicabDist true (initState 400 400)
        (.touchstart [(100, 100), (200, 100)])).1.lastTouchDist = 100 ∧
    (step taxicabDist true
        (step taxicabDist true (initState 400 400)
          (.touchstart [(100, 100), (200, 100)])).1
        (.touchmove [(150, 100), (150, 100)])).1.scale = 0 :=
  pinch_zero_distance_zeroes_scale taxicabDist (by norm_num [taxicabDist])
    (by norm_num [taxicabDist])

/-- C4.  Gesture exclusivity fails: from the initial state, a
middle-button mousedown starts a pan, and a left-button mousedown
arriving while that pan is in progress also starts a drag, leaving
`isPanning` and `isDragging` simultaneously true. -/
theorem mousedown_during_pan_breaks_exclusivity (hyp : ℚ → ℚ → ℚ)
    (hdc : Bool) :
    (step hyp hdc
        (step hyp hdc (initState 400 400) (.mousedown 10 10 2 false)).1
        (.mousedown 20 20 0 false)).1.isPanning = true ∧
    (step hyp hdc
        (step hyp hdc (initState 400 400) (.mousedown 10 10 2 false)).1
        (.mousedown 20 20 0 false)).1.isDragging = true := by
  constructor <;> rfl

/-- C5.  `fitBounds` on a non-degenerate rectangle with positive
available area chooses the min-quotient uniform scale and centers the
rectangle. -/
theorem fitBounds_formula (st : CanvasState) (l t r b p : ℚ)
    (hlr : l < r) (htb : t < b) (hw : 0 < st.width - p * 2)
    (hh : 0 < st.height - p * 2) :
    (fitBounds st l t r b p).scale
        = min ((st.width - p * 2) / (r - l)) ((st.height - p * 2) / (b - t)) ∧
    (fitBounds st l t r b p).offsetX
        = st.width / 2 - ((l + r) / 2) * (fitBounds st l t r b p).scale ∧
    (fitBounds st l t r b p).offsetY
        = st.height / 2 - ((t + b) / 2) * (fitBounds st l t r b p).scale := by
  simp only [fitBounds]
  split_ifs with h1 h2
  · exfalso; rcases h1 with h | h <;> linarith
  · exfalso; rcases h2 with h | h <;> linarith
  · exact ⟨rfl, rfl, rfl⟩

/-- Witness for C5: bounds `(0,0,100,100)` in a `200×200` area with
padding 0 give scale 2 and map world `(50,50)` to screen `(100,100)`. -/
theorem fitBounds_formula_witness :
    (fitBounds (initState 200 200) 0 0 100 100 0).scale = 2 ∧
    worldToScreen (fitBounds (initState 200 200) 0 0 100 100 0) 50 50
      = (100, 100) := by
  have h := fitBounds_formula (initState 200 200) 0 0 100 100 0
    (by norm_num) (by norm_num) (by norm_num [initState])
    (by norm_num [initState])
  refine ⟨h.1.trans (by norm_num [initState]), ?_⟩
  norm_num [worldToScreen, fitBounds, initState]

/-- C6.  A degenerate fit call (empty or inverted world rectangle, or
non-positive available area) leaves `scale`, `offsetX` and `offsetY`
exactly unchanged. -/
theorem degenerate_fit_is_noop (st : CanvasState) (l t r b p : ℚ)
    (h : r ≤ l ∨ b ≤ t ∨ st.width - p * 2 ≤ 0 ∨ st.height - p * 2 ≤ 0) :
    (fitBounds st l t r b p).scale = st.scale ∧
    (fitBounds st l t r b p).offsetX = st.offsetX ∧
    (fitBounds st l t r b p).offsetY = st.offsetY :=
  fitBounds_transform_of_degenerate st l t r b p h

/-- Witness for C6: a width-zero rectangle leaves the initial transform
untouched. -/
theorem degenerate_fit_is_noop_witness :
    (fitBounds (initState 200 200) 5 5 5 5 40).scale
        = (initState 200 200).scale ∧
    (fitBounds (initState 200 200) 5 5 5 5 40).offsetX
        = (initState 200 200).offsetX ∧
    (fitBounds (initState 200 200) 5 5 5 5 40).offsetY
        = (initState 200 200).offsetY :=
  degenerate_fit_is_noop (initState 200 200) 5 5 5 5 40 (Or.inl le_rfl)

/-- Overriding the pinch-baseline fields does not affect the
world-to-screen conversion. -/
lemma worldToScreen_baseline_override (st' : CanvasState)
    (mx my d a b : ℚ) :
    worldToScreen
      { st' with
          lastTouchMidX := mx
          lastTouchMidY := my
          lastTouchDist := d } a b = worldToScreen st' a b := rfl

/-- C7.  Two-finger touch-move while touch panning with a positive
stored distance: the handler's result equals the previous state panned
by the midpoint delta, then zoomed at the current midpoint by the
ratio of the current distance to the stored one, with the baseline
replaced by the current midpoint and distance; the scale is multiplied
by that ratio, and the world point under the current midpoint (after
the pan) stays at the midpoint on screen. -/
theorem pinch_step_pan_then_zoom (hyp : ℚ → ℚ → ℚ) (hdc : Bool)
    (st : CanvasState) (t0 t1 : ℚ × ℚ)
    (hpan : st.touchPanning = true) (hdist : 0 < st.lastTouchDist)
    (hsc : st.scale ≠ 0) :
    (step hyp hdc st (.touchmove [t0, t1])).1 =
      { zoomAt
          { st with
              offsetX := st.offsetX + ((t0.1 + t1.1) / 2 - st.lastTouchMidX)
              offsetY := st.offsetY + ((t0.2 + t1.2) / 2 - st.lastTouchMidY) }
          ((t0.1 + t1.1) / 2) ((t0.2 + t1.2) / 2)
          (hyp (t1.1 - t0.1) (t1.2 - t0.2) / st.lastTouchDist) with
          lastTouchMidX := (t0.1 + t1.1) / 2
          lastTouchMidY := (t0.2 + t1.2) / 2
          lastTouchDist := hyp (t1.1 - t0.1) (t1.2 - t0.2) } ∧
    (step hyp hdc st (.touchmove [t0, t1])).1.scale
        = st.scale * (hyp (t1.1 - t0.1) (t1.2 - t0.2) / st.lastTouchDist) ∧
    worldToScreen (step hyp hdc st (.touchmove [t0, t1])).1
        (screenToWorld
          { st with
              offsetX := st.offsetX + ((t0.1 + t1.1) / 2 - st.lastTouchMidX)
              offsetY := st.offsetY + ((t0.2 + t1.2) / 2 - st.lastTouchMidY) }
          ((t0.1 + t1.1) / 2) ((t0.2 + t1.2) / 2)).1
        (screenToWorld
          { st with
              offsetX := st.offsetX + ((t0.1 + t1.1) / 2 - st.lastTouchMidX)
              offsetY := st.offsetY + ((t0.2 + t1.2) / 2 - st.lastTouchMidY) }
          ((t0.1 + t1.1) / 2) ((t0.2 + t1.2) / 2)).2
      = ((t0.1 + t1.1) / 2, (t0.2 + t1.2) / 2) := by
  have key : (step hyp hdc st (.touchmove [t0, t1])).1 =
      { zoomAt
          { st with
              offsetX := st.offsetX + ((t0.1 + t1.1) / 2 - st.lastTouchMidX)
              offsetY := st.offsetY + ((t0.2 + t1.2) / 2 - st.lastTouchMidY) }
          ((t0.1 + t1.1) / 2) ((t0.2 + t1.2) / 2)
          (hyp (t1.1 - t0.1) (t1.2 - t0.2) / st.lastTouchDist) with
          lastTouchMidX := (t0.1 + t1.1) / 2
          lastTouchMidY := (t0.2 + t1.2) / 2
          lastTouchDist := hyp (t1.1 - t0.1) (t1.2 - t0.2) } := by
    have hne : ¬ st.touchPanning = false := by simp [hpan]
    simp only [step, onTouchmove, if_neg hne, if_pos hdist, zoomAt]
  refine ⟨key, ?_, ?_⟩
  · rw [key]
    rfl
  · rw [key]
    simp only [worldToScreen_baseline_override]
    exact zoomAt_anchor
      { st with
          offsetX := st.offsetX + ((t0.1 + t1.1) / 2 - st.lastTouchMidX)
          offsetY := st.offsetY + ((t0.2 + t1.2) / 2 - st.lastTouchMidY) }
      hsc ((t0.1 + t1.1) / 2) ((t0.2 + t1.2) / 2)
      (hyp (t1.1 - t0.1) (t1.2 - t0.2) / st.lastTouchDist)

/-- Witness for C7: contacts at `(100,100)`/`(200,100)` moving to
`(80,100)`/`(220,100)` multiply the scale by `140/100 = 7/5` and keep
the world point under the midpoint fixed at screen `(150,100)`. -/
theorem pinch_step_pan_then_zoom_witness :
    (step taxicabDist true
        { initState 400 400 with
            touchPanning := true
            lastTouchDist := 100
            lastTouchMidX := 150
            lastTouchMidY := 100 }
        (.touchmove [(80, 100), (220, 100)])).1.scale = 7 / 5 ∧
    worldToScreen
        (step taxicabDist true
          { initState 400 400 with
              touchPanning := true
              lastTouchDist := 100
              lastTouchMidX := 150
              lastTouchMidY := 100 }
          (.touchmove [(80, 100), (220, 100)])).1 150 100 = (150, 100) := by
  have h := pinch_step_pan_then_zoom taxicabDist true
    { initState 400 400 with
        touchPanning := true
        lastTouchDist := 100
        lastTouchMidX := 150
        lastTouchMidY := 100 }
    (80, 100) (220, 100) rfl (by norm_num [initState]) (by norm_num [initState])
  refine ⟨h.2.1.trans (by norm_num [initState, taxicabDist]), ?_⟩
  have h2 := h.2.2
  norm_num [initState, taxicabDist, screenToWorld] at h2 ⊢
  convert h2 using 2

/-- C8 (amended).  A terminating event of the drag's own modality
resolves it: touch-cancel during a touch drag invokes `endDrag`
exactly once and clears both touch flags, leaving the mouse flags
unchanged; mouse-leave during a mouse drag invokes `endDrag` exactly
once and clears both mouse flags, leaving the touch flags unchanged. -/
theorem drag_resolved_by_matching_terminator (hyp : ℚ → ℚ → ℚ)
    (hdc : Bool) (st : CanvasState) :
    (st.touchDragging = true →
      (step hyp hdc st .touchcancel).2 = 1 ∧
      (step hyp hdc st .touchcancel).1.touchDragging = false ∧
      (step hyp hdc st .touchcancel).1.touchPanning = false ∧
      (step hyp hdc st .touchcancel).1.isDragging = st.isDragging ∧
      (step hyp hdc st .touchcancel).1.isPanning = st.isPanning) ∧
    (st.isDragging = true →
      (step hyp hdc st .mouseleave).2 = 1 ∧
      (step hyp hdc st .mouseleave).1.isDragging = false ∧
      (step hyp hdc st .mouseleave).1.isPanning = false ∧
      (step hyp hdc st .mouseleave).1.touchDragging = st.touchDragging ∧
      (step hyp hdc st .mouseleave).1.touchPanning = st.touchPanning) := by
  constructor <;> intro h <;>
    simp [step, onTouchcancel, onMouseleave, h]

/-- Witness for C8's amended statement: both modality-matched
terminators fire `endDrag` exactly once. -/
theorem drag_resolved_by_matching_terminator_witness :
    (step taxicabDist true
        { initState 400 400 with touchDragging := true, isDragging := true }
        .touchcancel).2 = 1 ∧
    (step taxicabDist true
        { initState 400 400 with touchDragging := true, isDragging := true }
        .mouseleave).2 = 1 := by
  have h := drag_resolved_by_matching_terminator taxicabDist true
    { initState 400 400 with touchDragging := true, isDragging := true }
  exact ⟨(h.1 rfl).1, (h.2 rfl).1⟩

/-- Counterexample for C8 as stated: while a touch drag is active, a
mouse-leave event invokes `endDrag` zero times (not once) and leaves
`touchDragging` true (the state is not Idle). -/
theorem mouseleave_ignores_touch_drag :
    (step taxicabDist true (initState 400 400)
        (.touchstart [(50, 50)])).1.touchDragging = true ∧
    (step taxicabDist true
        (step taxicabDist true (initState 400 400)
          (.touchstart [(50, 50)])).1 .mouseleave).2 = 0 ∧
    (step taxicabDist true
        (step taxicabDist true (initState 400 400)
          (.touchstart [(50, 50)])).1 .mouseleave).1.touchDragging = true := by
  refine ⟨rfl, rfl, rfl⟩

/-- C9 (amended).  For scales in `[3/25, 30]` the chosen grid step is
one of `10, 25, 50, 100, 250` (50 scaled by 2 or 5) and its on-screen
spacing lies in the 30–300 px band. -/
theorem grid_band_on_moderate_scales (s : ℚ) (h1 : 3 / 25 ≤ s)
    (h2 : s ≤ 30) :
    (30 ≤ gridStep s * s ∧ gridStep s * s ≤ 300) ∧
    (gridStep s = 10 ∨ gridStep s = 25 ∨ gridStep s = 50 ∨
      gridStep s = 100 ∨ gridStep s = 250) := by
  simp only [gridStep]
  split_ifs <;>
    first
      | (exfalso; linarith)
      | (refine ⟨⟨by linarith, by linarith⟩, by norm_num⟩)

/-- Witness for C9's amended statement at scale 1: grid step 100,
spacing 100 px. -/
theorem grid_band_on_moderate_scales_witness :
    (30 ≤ gridStep 1 * 1 ∧ gridStep 1 * 1 ≤ 300) ∧
    (gridStep 1 = 10 ∨ gridStep 1 = 25 ∨ gridStep 1 = 50 ∨
      gridStep 1 = 100 ∨ gridStep 1 = 250) :=
  grid_band_on_moderate_scales 1 (by norm_num) (by norm_num)

/-- Counterexample for C9 as stated: at the positive scale `1/100` the
chosen grid step is 250, whose on-screen spacing `5/2` px is far below
the 30 px lower bound. -/
theorem grid_band_fails_at_extreme_scale :
    0 < (1 / 100 : ℚ) ∧ gridStep (1 / 100) = 250 ∧
      gridStep (1 / 100) * (1 / 100) < 30 := by
  simp only [gridStep]
  norm_num

/-- C10.  Every `fitBounds` call, degenerate or not, records the
requested rectangle in `savedBounds`; after a call with a degenerate
world rectangle, any sequence of container resizes re-invokes
`fitBounds` on that degenerate rectangle and therefore never changes
the transform again. -/
theorem degenerate_fit_overwrites_savedBounds (st : CanvasState)
    (l t r b p : ℚ) :
    (fitBounds st l t r b p).savedBounds = some (l, t, r, b) ∧
    (r ≤ l ∨ b ≤ t →
      ∀ ws : List (ℚ × ℚ),
        (ws.foldl (fun x wh => resizeEvent x wh.1 wh.2)
            (fitBounds st l t r b p)).scale = (fitBounds st l t r b p).scale ∧
        (ws.foldl (fun x wh => resizeEvent x wh.1 wh.2)
            (fitBounds st l t r b p)).offsetX
          = (fitBounds st l t r b p).offsetX ∧
        (ws.foldl (fun x wh => resizeEvent x wh.1 wh.2)
            (fitBounds st l t r b p)).offsetY
          = (fitBounds st l t r b p).offsetY) := by
  refine ⟨fitBounds_savedBounds st l t r b p, fun hdeg ws => ?_⟩
  exact resizes_preserve_transform_of_degenerate l t r b hdeg ws _
    (fitBounds_savedBounds st l t r b p)

/-- Witness for C10: a valid fit, then a degenerate one, then a
resize; the degenerate rectangle is the remembered one and the resize
leaves the transform unchanged. -/
theorem degenerate_fit_overwrites_savedBounds_witness :
    (fitBounds (fitBounds (initState 200 200) 0 0 100 100 0)
        5 5 5 5 40).savedBounds = some (5, 5, 5, 5) ∧
    ([((1000 : ℚ), (1000 : ℚ))].foldl (fun x wh => resizeEvent x wh.1 wh.2)
        (fitBounds (fitBounds (initState 200 200) 0 0 100 100 0)
          5 5 5 5 40)).scale
      = (fitBounds (fitBounds (initState 200 200) 0 0 100 100 0)
          5 5 5 5 40).scale := by
  have h := degenerate_fit_overwrites_savedBounds
    (fitBounds (initState 200 200) 0 0 100 100 0) 5 5 5 5 40
  exact ⟨h.1, (h.2 (Or.inl le_rfl) [(1000, 1000)]).1⟩

end DemoCanvas
